import Mathlib

/-!
A verification development for the Relay policy-decision-point gateway.

The Python source is embedded shallowly:

* JSON documents (Python `dict`/`list`/`str`/`int`/`bool`/`None` values, as
  handled by `json.dumps(..., sort_keys=True, separators=(',', ':'))`) become
  the inductive type `Json`.  A Python `dict` is an unordered finite map; its
  canonical representative here is the association list sorted by key, which
  is exactly the order `sort_keys=True` emits, so the serializer emits object
  fields in stored order and the top-level payload constructor sorts its
  field list explicitly (mirroring `sort_keys=True` on the payload dict).
* Text is `List Char` (Python `str`); `json.dumps` runs with the default
  `ensure_ascii=True`, which the escaper `escChar` reproduces, including
  `\uXXXX` escapes and UTF-16 surrogate pairs.  The final
  `.encode('utf-8')` is an injective map from strings to bytes, so claims
  about the signed byte string are stated on the `List Char` payload.
* JSON numbers are modelled as `Int` (the manifests' parameter documents in
  this repository carry integers; IEEE floats are outside the model).
* Ed25519 is idealized as a deterministic signature scheme in which each
  (key, message) pair has a unique valid signature: `edSign` pairs the key
  with the message and `edVerify` checks that pair against the public key.
  Honest-signer correctness and the impossibility of one signature verifying
  under two distinct messages or keys hold in this model by construction;
  these are the standard properties of Ed25519 the code relies on.  The
  base64 transport encoding of signatures and keys is a bijection between
  byte strings and text, so the model stores the decoded values directly.
* Timestamps on manifests are modelled as their ISO-8601 strings (what
  `datetime.isoformat()` produces and what gets signed); timestamps that the
  code compares or adds to (seal expiry, `executed_at`) are modelled as Unix
  seconds (`Int`).
* The durable store is a record of lists of rows; SQLAlchemy `add`/`flush`
  append, `commit` keeps the new state and `rollback` restores the state the
  request started from.
-/

/-! ## JSON documents and the canonical serializer -/

/-- A JSON document: the values `json.dumps` handles in this code base.
Objects are association lists; the canonical representative of a Python
`dict` keeps its keys in sorted order (see the module comment). -/
inductive Json where
  | null : Json
  | bool : Bool → Json
  | num : Int → Json
  | str : List Char → Json
  | arr : List Json → Json
  | obj : List (List Char × Json) → Json
deriving Repr

/-- Decimal digit character for `d < 10`. -/
def digitChar (d : Nat) : Char :=
  if d = 0 then '0' else if d = 1 then '1' else if d = 2 then '2'
  else if d = 3 then '3' else if d = 4 then '4' else if d = 5 then '5'
  else if d = 6 then '6' else if d = 7 then '7' else if d = 8 then '8' else '9'

/-- Decimal digits of a natural number, most significant first (the digits
`repr(n)` prints for a Python non-negative `int`). -/
def natDigits (n : Nat) : List Char :=
  if _h : n < 10 then [digitChar n]
  else natDigits (n / 10) ++ [digitChar (n % 10)]
decreasing_by
  exact Nat.div_lt_self (by omega) (by omega)

/-- Decimal rendering of an integer, as Python's `repr` of an `int`. -/
def serInt (i : Int) : List Char :=
  if i < 0 then '-' :: natDigits i.natAbs else natDigits i.natAbs

/-- Lowercase hexadecimal digit for `d < 16` (Python's `'{:04x}'.format`). -/
def hexDigit (d : Nat) : Char :=
  if d < 10 then digitChar d
  else if d = 10 then 'a' else if d = 11 then 'b' else if d = 12 then 'c'
  else if d = 13 then 'd' else if d = 14 then 'e' else 'f'

/-- Four lowercase hex digits of `n < 0x10000`. -/
def hex4 (n : Nat) : List Char :=
  [hexDigit (n / 4096 % 16), hexDigit (n / 256 % 16),
   hexDigit (n / 16 % 16), hexDigit (n % 16)]

/-- JSON escape of one character, as CPython's
`json.encoder.py_encode_basestring_ascii` (the default `ensure_ascii=True`):
`"` and `\` and the five named control characters get two-character escapes,
printable ASCII is copied, everything else becomes `\uXXXX` (with a UTF-16
surrogate pair above the BMP). -/
def escChar (c : Char) : List Char :=
  if c = '"' then ['\\', '"']
  else if c = '\\' then ['\\', '\\']
  else if c = '\x08' then ['\\', 'b']
  else if c = '\x0c' then ['\\', 'f']
  else if c = '\n' then ['\\', 'n']
  else if c = '\r' then ['\\', 'r']
  else if c = '\t' then ['\\', 't']
  else if 0x20 ≤ c.toNat ∧ c.toNat ≤ 0x7e then [c]
  else if c.toNat < 0x10000 then '\\' :: 'u' :: hex4 c.toNat
  else
    ('\\' :: 'u' :: hex4 (0xd800 + (c.toNat - 0x10000) / 0x400)) ++
    ('\\' :: 'u' :: hex4 (0xdc00 + (c.toNat - 0x10000) % 0x400))

/-- JSON escape of a string body. -/
def escStr : List Char → List Char
  | [] => []
  | c :: cs => escChar c ++ escStr cs

/-- A JSON string literal: quote, escaped body, quote. -/
def serStr (s : List Char) : List Char :=
  '"' :: escStr s ++ ['"']

mutual

/-- Serialize a JSON document exactly as
`json.dumps(v, sort_keys=True, separators=(',', ':'))` renders the
canonical representative: no whitespace, `,` and `:` separators, object
fields in stored (sorted) order. -/
def serJson : Json → List Char
  | .num i => serInt i
  | .str s => serStr s
  | .arr xs => '[' :: serItems xs ++ [']']
  | .obj kvs => '\x7b' :: serFields kvs ++ ['\x7d']
  | .bool b => if b then ['t', 'r', 'u', 'e'] else ['f', 'a', 'l', 's', 'e']
  | .null => ['n', 'u', 'l', 'l']

/-- Array elements joined by `,`. -/
def serItems : List Json → List Char
  | [] => []
  | [x] => serJson x
  | x :: xs => serJson x ++ ',' :: serItems xs

/-- Object fields `"key":value` joined by `,`. -/
def serFields : List (List Char × Json) → List Char
  | [] => []
  | [(k, v)] => serStr k ++ ':' :: serJson v
  | (k, v) :: kvs => serStr k ++ ':' :: serJson v ++ ',' :: serFields kvs

end



/-! ## Key ordering (Python string `<` is code-point lexicographic) -/

/-- Lexicographic (code-point) order on strings, Python's `str.__le__`. -/
def lexLe : List Char → List Char → Bool
  | [], _ => true
  | _ :: _, [] => false
  | a :: as, b :: bs => if a < b then true else if a = b then lexLe as bs else false

/-- Insert a field into a key-sorted field list (stable for equal keys). -/
def insertField (e : List Char × Json) :
    List (List Char × Json) → List (List Char × Json)
  | [] => [e]
  | f :: fs => if lexLe e.1 f.1 then e :: f :: fs else f :: insertField e fs

/-- Sort an object's fields by key, as `sort_keys=True` does. -/
def sortFields : List (List Char × Json) → List (List Char × Json)
  | [] => []
  | f :: fs => insertField f (sortFields fs)

/-! ## Manifest data model (`gateway/models/manifest.py`) -/

/-- `AgentContext`: agent identity on a manifest. -/
structure AgentContext where
  agent_id : List Char
  org_id : List Char
  user_id : Option (List Char)
deriving Repr, DecidableEq

/-- `ActionRequest`: the provider/method/parameters block of a manifest.
`parameters` is the structured JSON document as submitted. -/
structure ActionRequest where
  provider : List Char
  method : List Char
  parameters : Json
deriving Repr

/-- `Justification`: the agent's reasoning.  `confidence_score` is an IEEE
float in the source and is outside the model; no claim mentions it. -/
structure Justification where
  reasoning : List Char
deriving Repr, DecidableEq

/-- `Manifest`: the core request document.  `manifest_id` is the UUID as the
string `str(manifest_id)`; `timestamp` is the ISO-8601 string
`timestamp.isoformat()` (see the module comment on timestamps). -/
structure Manifest where
  manifest_id : List Char
  version : List Char
  timestamp : List Char
  agent : AgentContext
  action : ActionRequest
  justification : Justification
  environment : List Char
deriving Repr

/-! ## Ideal Ed25519 (see the module comment) -/

/-- An ideal signature: the signing key paired with the signed message.
Deterministic Ed25519 admits exactly one valid signature per key and
message, which this representation captures literally. -/
structure Sig where
  key : Nat
  msg : List Char
deriving Repr, DecidableEq

/-- Ideal signing: `nacl.signing.SigningKey.sign`. -/
def edSign (sk : Nat) (msg : List Char) : Sig := ⟨sk, msg⟩

/-- Ideal public key derivation: in the ideal model public keys are in
bijection with signing keys, so the public key is the key itself. -/
def edPublicKey (sk : Nat) : Nat := sk

/-- Ideal verification: `nacl.signing.VerifyKey(pk).verify(msg, sig)`
succeeds exactly on the unique valid signature for `(pk, msg)`.  It is a
total function: the source's `try/except` around verification means any
cryptographic failure yields `false` rather than an exception. -/
def edVerify (pk : Nat) (msg : List Char) (sig : Sig) : Bool :=
  sig == ⟨pk, msg⟩

/-! ## Seal model (`gateway/models/seal.py`, `gateway/core/seal.py`) -/

/-- A `Seal`, as both the Pydantic model and the `seals` table row.
`signature` and `public_key` hold the values whose base64 encodings the
source stores (base64 is a bijection, see the module comment); `issued_at`,
`expires_at` and `executed_at` are Unix seconds. -/
structure Seal where
  seal_id : List Char
  manifest_id : List Char
  approved : Bool
  policy_version : List Char
  denial_reason : Option (List Char)
  signature : Sig
  public_key : Nat
  issued_at : Int
  expires_at : Int
  was_executed : Bool
  executed_at : Option Int
deriving Repr, DecidableEq

/-- `Seal.generate_seal_id`: `seal_{unix_seconds}_{first_uuid_group}` where
the first group is everything before the first `-` of the manifest UUID. -/
def generateSealId (now : Int) (manifest_id : List Char) : List Char :=
  "seal_".data ++ serInt now ++ '_' :: manifest_id.takeWhile (· ≠ '-')

/-- `Seal.create_expiry`: now plus the TTL in minutes. -/
def createExpiry (now : Int) (ttl_minutes : Int) : Int :=
  now + ttl_minutes * 60

/-- `Seal.is_expired`: strictly past the expiry instant. -/
def Seal.is_expired (s : Seal) (now : Int) : Bool :=
  now > s.expires_at

/-- `SealGenerator._create_signable_payload`: the canonical byte string that
is signed.  The dict literal lists the nine fields in source order;
`json.dumps(..., sort_keys=True, separators=(',', ':'))` sorts the keys and
serializes without whitespace. -/
def createSignablePayload (m : Manifest) (policy_version : List Char)
    (approved : Bool) : List Char :=
  serJson (Json.obj (sortFields
    [("manifest_id".data, Json.str m.manifest_id),
     ("timestamp".data, Json.str m.timestamp),
     ("agent_id".data, Json.str m.agent.agent_id),
     ("org_id".data, Json.str m.agent.org_id),
     ("provider".data, Json.str m.action.provider),
     ("method".data, Json.str m.action.method),
     ("parameters".data, m.action.parameters),
     ("policy_version".data, Json.str policy_version),
     ("approved".data, Json.bool approved)]))

/-- `SealGenerator.create_seal`: sign the canonical payload with the
server's key and assemble the seal.  `now` models `datetime.utcnow()`. -/
def createSeal (sk : Nat) (now : Int) (m : Manifest) (approved : Bool)
    (policy_version : List Char) (denial_reason : Option (List Char))
    (ttl_minutes : Int) : Seal :=
  let payload := createSignablePayload m policy_version approved
  { seal_id := generateSealId now m.manifest_id
    manifest_id := m.manifest_id
    approved := approved
    policy_version := policy_version
    denial_reason := denial_reason
    signature := edSign sk payload
    public_key := edPublicKey sk
    issued_at := now
    expires_at := createExpiry now ttl_minutes
    was_executed := false
    executed_at := none }

/-- `SealGenerator.verify_seal`: rebuild the canonical payload from the
manifest and the seal's own stored `policy_version` and `approved`, then
check the stored signature against the seal's own stored public key.  The
source wraps this in `try/except` returning `False`; here the function is
total, so no exception can escape. -/
def verifySeal (sl : Seal) (m : Manifest) : Bool :=
  let payload := createSignablePayload m sl.policy_version sl.approved
  edVerify sl.public_key payload sl.signature

/-- `SealGenerator.verify_seal_static`: check a bare signature against a
bare public key over a caller-supplied payload. -/
def verifySealStatic (signature : Sig) (public_key : Nat)
    (payload : List Char) : Bool :=
  edVerify public_key payload signature

/-! ## Store rows and the database state (`gateway/db/models.py`) -/

/-- A `manifests` table row, as `LedgerWriter.write_manifest` populates it.
`manifest_json` keeps the full submitted document (the source stores
`manifest.model_dump(mode='json')`, which round-trips to the model). -/
structure ManifestRecord where
  manifest_id : List Char
  created_at : List Char
  agent_id : List Char
  org_id : List Char
  user_id : Option (List Char)
  provider : List Char
  method : List Char
  parameters : Json
  reasoning : List Char
  environment : List Char
  manifest_json : Manifest
deriving Repr

/-- An `agents` table row (the fields token verification reads). -/
structure AgentRow where
  agent_id : List Char
  org_id : List Char
  agent_name : List Char
  is_active : Bool
deriving Repr, DecidableEq

/-- An `organizations` table row (the fields `get_organization` reads). -/
structure OrganizationRow where
  org_id : List Char
  org_name : List Char
  contact_email : List Char
  is_active : Bool
deriving Repr, DecidableEq

/-- An `auth_events` table row, as `log_auth_event` populates it. -/
structure AuthEvent where
  event_type : List Char
  agent_id : Option (List Char)
  org_id : Option (List Char)
  endpoint : Option (List Char)
  ip_address : Option (List Char)
  success : Bool
  failure_reason : Option (List Char)
deriving Repr, DecidableEq

/-- The durable store: one list of rows per table.  Seal rows reuse `Seal`
(the `SealRecord` columns coincide with the model's fields). -/
structure DB where
  manifests : List ManifestRecord
  seals : List Seal
  agents : List AgentRow
  orgs : List OrganizationRow
  authEvents : List AuthEvent
deriving Repr

/-- The empty store. -/
def DB.empty : DB := ⟨[], [], [], [], []⟩

/-! ## Ledger writer (`gateway/core/ledger.py`) -/

/-- `LedgerWriter.write_manifest`: append the manifest row (`add`+`flush`). -/
def writeManifest (m : Manifest) (db : DB) : DB :=
  { db with manifests := db.manifests ++
      [{ manifest_id := m.manifest_id
         created_at := m.timestamp
         agent_id := m.agent.agent_id
         org_id := m.agent.org_id
         user_id := m.agent.user_id
         provider := m.action.provider
         method := m.action.method
         parameters := m.action.parameters
         reasoning := m.justification.reasoning
         environment := m.environment
         manifest_json := m }] }

/-- `LedgerWriter.write_seal`: append the seal row (`add`+`flush`). -/
def writeSeal (s : Seal) (db : DB) : DB :=
  { db with seals := db.seals ++ [s] }

/-- `LedgerWriter.get_manifest`: first row with the given `manifest_id`. -/
def getManifest (db : DB) (manifest_id : List Char) : Option ManifestRecord :=
  db.manifests.find? (fun r => r.manifest_id = manifest_id)

/-- `LedgerWriter.get_seal`: first row with the given `seal_id`. -/
def getSeal (db : DB) (seal_id : List Char) : Option Seal :=
  db.seals.find? (fun s => s.seal_id = seal_id)

/-- Flip `was_executed`/`executed_at` on the first row with this id. -/
def setExecuted (now : Int) (seal_id : List Char) : List Seal → List Seal
  | [] => []
  | s :: rest =>
    if s.seal_id = seal_id then
      { s with was_executed := true, executed_at := some now } :: rest
    else s :: setExecuted now seal_id rest

/-- `LedgerWriter.mark_seal_executed`: look the seal up; `False` when
absent; raise (`.error`) when it was already executed; otherwise set
`executed=true, executed_at=now()` and flush. -/
def ledgerMarkSealExecuted (now : Int) (seal_id : List Char) (db : DB) :
    Except (List Char) (Bool × DB) :=
  match getSeal db seal_id with
  | none => .ok (false, db)
  | some s =>
    if s.was_executed then
      .error ("Seal was already executed".data)
    else
      .ok (true, { db with seals := setExecuted now seal_id db.seals })

/-- Insertion sort of manifest rows by `created_at` descending (the
`ORDER BY created_at DESC` of `query_manifests`). -/
def insertByCreatedDesc (r : ManifestRecord) :
    List ManifestRecord → List ManifestRecord
  | [] => [r]
  | x :: xs => if lexLe x.created_at r.created_at then r :: x :: xs
               else x :: insertByCreatedDesc r xs

/-- Sort manifest rows by `created_at` descending. -/
def sortByCreatedDesc : List ManifestRecord → List ManifestRecord
  | [] => []
  | r :: rs => insertByCreatedDesc r (sortByCreatedDesc rs)

/-- One optional string filter of `query_manifests` (the Python pattern
`if x: query = query.filter(col == x)`; truthiness makes an empty string
behave like `None`). -/
def optFilter (o : Option (List Char)) (sel : ManifestRecord → List Char)
    (q : List ManifestRecord) : List ManifestRecord :=
  match o with
  | some x => if x = [] then q else q.filter (fun r => sel r = x)
  | none => q

/-- The tri-state `approved_only` filter: an inner join with `seals` on
the manifest id plus a filter on `approved`. -/
def approvedFilter (db : DB) (approved_only : Option Bool)
    (q : List ManifestRecord) : List ManifestRecord :=
  match approved_only with
  | some b => q.filter (fun r =>
      db.seals.any (fun s => s.manifest_id = r.manifest_id ∧ s.approved = b))
  | none => q

/-- `LedgerWriter.query_manifests`: optional filters, an inner join with
`seals` when `approved_only` is set, newest first, then
`OFFSET`/`LIMIT`. -/
def queryManifests (org_id agent_id provider : Option (List Char))
    (approved_only : Option Bool) (limit offset : Nat) (db : DB) :
    List ManifestRecord :=
  let q := optFilter org_id (·.org_id) db.manifests
  let q := optFilter agent_id (·.agent_id) q
  let q := optFilter provider (·.provider) q
  let q := approvedFilter db approved_only q
  ((sortByCreatedDesc q).drop offset).take limit

/-! ## Policy engine client (`gateway/core/policy_engine.py`) -/

/-- The body of an OPA HTTP response: unparseable JSON, JSON without a
`result` field, or a `result` object whose `allow` and `reason` keys may
each be absent. -/
inductive OpaBody where
  | malformed : OpaBody
  | missingResult : OpaBody
  | result : Option Bool → Option (List Char) → OpaBody
deriving Repr, DecidableEq

/-- What the OPA HTTP round trip can come back with: the exceptions
`requests` raises, or a response with a status code and a body. -/
inductive OpaOutcome where
  | timeout : OpaOutcome
  | connectionError : OpaOutcome
  | response : Nat → OpaBody → OpaOutcome
deriving Repr, DecidableEq

/-- `PolicyEngine.evaluate`: timeout, connection failure, an HTTP error
status (`raise_for_status` raises for 400–599), a body that fails to parse,
or a body without `result` all raise `PolicyEngineError` (`.error`);
otherwise `allow` defaults to `False` and, on denial, `reason` defaults to
"Policy violation". -/
def policyEvaluate (o : OpaOutcome) :
    Except (List Char) (Bool × Option (List Char)) :=
  match o with
  | .timeout => .error "OPA request timed out".data
  | .connectionError => .error "Cannot connect to OPA".data
  | .response status body =>
    if 400 ≤ status ∧ status < 600 then .error "OPA HTTP error".data
    else match body with
      | .malformed => .error "Policy evaluation failed".data
      | .missingResult => .error "Invalid OPA response: missing result field".data
      | .result allow reason =>
        let approved := allow.getD false
        if approved then .ok (true, none)
        else .ok (false, some (reason.getD "Policy violation".data))

/-! ## Auth gate (`gateway/core/auth.py`) -/

/-- `AuthContext`: the authenticated `(agent_id, org_id)` pair. -/
structure AuthContext where
  agent_id : List Char
  org_id : List Char
deriving Repr, DecidableEq

/-- The claims of a JWT payload as `verify_jwt` reads them: `payload.get`
may find each of `agent_id`/`org_id` absent; `exp` is a Unix timestamp. -/
structure TokenPayload where
  agent_id : Option (List Char)
  org_id : Option (List Char)
  iat : Int
  exp : Int
deriving Repr, DecidableEq

/-- An ideal HMAC-SHA256 tag over a token payload: as with `Sig`, the tag
determines the secret and the exact payload it authenticates. -/
structure MacTag where
  secret : List Char
  payload : TokenPayload
deriving Repr, DecidableEq

/-- A bearer token: its payload and its signature tag. -/
structure Token where
  payload : TokenPayload
  tag : MacTag
deriving Repr, DecidableEq

/-- `generate_jwt`: HMAC-sign the claims with the process secret. -/
def generateJwt (secret : List Char) (agent_id org_id : List Char)
    (now : Int) (expiry_hours : Int) : Token :=
  let payload : TokenPayload :=
    { agent_id := some agent_id, org_id := some org_id,
      iat := now, exp := now + expiry_hours * 3600 }
  { payload := payload, tag := ⟨secret, payload⟩ }

/-- The two `jwt` exceptions `verify_jwt` distinguishes. -/
inductive JwtError where
  | expiredSignature : JwtError
  | invalidToken : JwtError
deriving Repr, DecidableEq

/-- `decode_jwt`: PyJWT verifies the HMAC signature first
(`InvalidTokenError` on mismatch), then checks `exp` with 10 seconds of
leeway (`ExpiredSignatureError` when `exp <= now - 10`). -/
def decodeJwt (secret : List Char) (now : Int) (t : Token) :
    Except JwtError TokenPayload :=
  if t.tag ≠ ⟨secret, t.payload⟩ then .error .invalidToken
  else if t.payload.exp ≤ now - 10 then .error .expiredSignature
  else .ok t.payload

/-- `log_auth_event`: append an auth event row and commit. -/
def logAuthEvent (db : DB) (event_type : List Char) (success : Bool)
    (agent_id org_id endpoint ip failure_reason : Option (List Char)) : DB :=
  { db with authEvents := db.authEvents ++
      [{ event_type := event_type, agent_id := agent_id, org_id := org_id,
         endpoint := endpoint, ip_address := ip, success := success,
         failure_reason := failure_reason }] }

/-- The outcome of a dependency or endpoint: a value, or an
`HTTPException` with a status code (response details are omitted; only the
status codes decide the claims). -/
inductive HttpResult (α : Type) where
  | ok : α → HttpResult α
  | error : Nat → HttpResult α
deriving Repr, DecidableEq

/-- `verify_jwt` (the enforced dependency): 401 when the token is missing;
decode it; 401 when `agent_id` or `org_id` is absent or empty (Python
truthiness); 401 when the agent row is missing or inactive; otherwise build
the `AuthContext`.  Every outcome except the bare invalid-payload raise
writes an auth event first.  `endpoint` is the request path. -/
def verifyJwt (secret : List Char) (now : Int) (endpoint : List Char)
    (credentials : Option Token) (db : DB) :
    HttpResult AuthContext × DB :=
  match credentials with
  | none =>
    (.error 401,
     logAuthEvent db "authorization_failure".data false none none
       (some endpoint) none (some "Missing authorization token".data))
  | some t =>
    match decodeJwt secret now t with
    | .error .expiredSignature =>
      (.error 401,
       logAuthEvent db "authorization_failure".data false none none
         (some endpoint) none (some "Token expired".data))
    | .error .invalidToken =>
      (.error 401,
       logAuthEvent db "authorization_failure".data false none none
         (some endpoint) none (some "Invalid token".data))
    | .ok payload =>
      match payload.agent_id, payload.org_id with
      | some agent_id, some org_id =>
        if agent_id = [] ∨ org_id = [] then (.error 401, db)
        else
          match db.agents.find? (fun a => a.agent_id = agent_id) with
          | some agent =>
            if agent.is_active then
              (.ok ⟨agent_id, org_id⟩,
               logAuthEvent db "authorization_success".data true
                 (some agent_id) (some org_id) (some endpoint) none none)
            else
              (.error 401,
               logAuthEvent db "authorization_failure".data false
                 (some agent_id) (some org_id) (some endpoint) none
                 (some "Agent not found or inactive".data))
          | none =>
            (.error 401,
             logAuthEvent db "authorization_failure".data false
               (some agent_id) (some org_id) (some endpoint) none
               (some "Agent not found or inactive".data))
      | _, _ => (.error 401, db)

/-- `verify_jwt_optional`: when `auth_required` is false the dependency
returns `None` immediately — before ever looking at the bearer
credentials; when true, a missing token is 401 and a present one goes
through `verify_jwt`. -/
def verifyJwtOptional (auth_required : Bool) (secret : List Char)
    (now : Int) (endpoint : List Char) (credentials : Option Token)
    (db : DB) : HttpResult (Option AuthContext) × DB :=
  if ¬auth_required then (.ok none, db)
  else
    match credentials with
    | none =>
      (.error 401,
       logAuthEvent db "authorization_failure".data false none none
         (some endpoint) none (some "Missing authorization token".data))
    | some t =>
      match verifyJwt secret now endpoint (some t) db with
      | (.ok ctx, db') => (.ok (some ctx), db')
      | (.error code, db') => (.error code, db')

/-! ## Manifest validation endpoint (`gateway/api/v1/manifest.py`) -/

/-- `ManifestValidationResponse`. -/
structure ManifestValidationResponse where
  manifest_id : List Char
  approved : Bool
  «seal» : Option Seal
  denial_reason : Option (List Char)
  policy_version : List Char
deriving Repr

/-- `POST /v1/manifest/validate`.  Inputs beyond the request itself: the
auth dependency's result (`auth`), the server key and clock, the TTL
setting, and the two OPA round trips (`opa` feeds `PolicyEngine.evaluate`;
`policy_version` is `get_policy_version()`'s result, which never raises —
it falls back to a default on any failure).  If the caller is authenticated
and the manifest's org differs, log `authorization_failure` and return 403.
A `PolicyEngineError` is 503 with nothing written (the error is raised
before any ledger call).  Otherwise mint the seal; unless `dry_run`, append
the manifest row, then the seal row, and commit; only an approved seal is
echoed in the response. -/
def validateManifest (sk : Nat) (now ttl_minutes : Int)
    (auth : Option AuthContext) (manifest : Manifest) (dry_run : Bool)
    (opa : OpaOutcome) (policy_version : List Char) (db : DB) :
    HttpResult ManifestValidationResponse × DB :=
  match auth with
  | some a =>
    if manifest.agent.org_id ≠ a.org_id then
      (.error 403,
       logAuthEvent db "authorization_failure".data false
         (some a.agent_id) (some a.org_id)
         (some "/v1/manifest/validate".data) none
         (some "Org mismatch".data))
    else validateManifestCore sk now ttl_minutes manifest dry_run opa
           policy_version db
  | none =>
    validateManifestCore sk now ttl_minutes manifest dry_run opa
      policy_version db
where
  /-- The body of the endpoint's `try` block, after the authorization
  check. -/
  validateManifestCore (sk : Nat) (now ttl_minutes : Int)
      (manifest : Manifest) (dry_run : Bool) (opa : OpaOutcome)
      (policy_version : List Char) (db : DB) :
      HttpResult ManifestValidationResponse × DB :=
    match policyEvaluate opa with
    | .error _ => (.error 503, db)
    | .ok (approved, denial_reason) =>
      let s := createSeal sk now manifest approved policy_version
                 denial_reason ttl_minutes
      let db' := if dry_run then db else writeSeal s (writeManifest manifest db)
      (.ok { manifest_id := manifest.manifest_id
             approved := approved
             «seal» := if approved then some s else none
             denial_reason := denial_reason
             policy_version := policy_version }, db')

/-! ## Seal lifecycle endpoints (`gateway/api/v1/seal.py`) -/

/-- `SealVerificationResponse`. -/
structure SealVerificationResponse where
  seal_id : List Char
  valid : Bool
  approved : Bool
  expired : Bool
  already_executed : Bool
  reason : Option (List Char)
  manifest_id : List Char
deriving Repr

/-- `GET /v1/seal/verify`: 404 when the seal or its manifest is absent;
otherwise compute the four predicates, fold them into `valid`, and pick the
reason by the priority order bad signature → denial → expired → already
executed. -/
def verifySealApi (now : Int) (seal_id : List Char) (db : DB) :
    HttpResult SealVerificationResponse :=
  match getSeal db seal_id with
  | none => .error 404
  | some s =>
    match getManifest db s.manifest_id with
    | none => .error 404
    | some mrec =>
      let m := mrec.manifest_json
      let signature_valid := verifySeal s m
      let expired := s.is_expired now
      let already_executed := s.was_executed
      let valid := signature_valid && !expired && !already_executed
                     && s.approved
      let reason : Option (List Char) :=
        if ¬signature_valid then some "Invalid cryptographic signature".data
        else if ¬s.approved then some ("Action was denied: ".data ++
          (match s.denial_reason with
           | some r => r
           | none => "None".data))
        else if expired then some "Seal has expired".data
        else if already_executed then
          some "Seal has already been executed".data
        else none
      .ok { seal_id := seal_id, valid := valid, approved := s.approved,
            expired := expired, already_executed := already_executed,
            reason := reason, manifest_id := s.manifest_id }

/-- `POST /v1/seal/mark-executed`.  The whole body sits in one `try` whose
handler rolls back and re-raises every `Exception` as a 400 — and
`fastapi.HTTPException` subclasses `Exception`, so the endpoint's own
`HTTPException(404)` for an unknown seal is caught there and surfaces as a
400 as well.  Only the success path commits. -/
def markSealExecutedApi (now : Int) (seal_id : List Char) (db : DB) :
    HttpResult Unit × DB :=
  let tryBlock : Except Unit DB :=
    match ledgerMarkSealExecuted now seal_id db with
    | .error _ => .error ()            -- ledger raised: already executed
    | .ok (false, _) => .error ()      -- raise HTTPException(404): caught below
    | .ok (true, db') => .ok db'       -- db.commit()
  match tryBlock with
  | .ok db' => (.ok (), db')
  | .error _ => (.error 400, db)       -- except Exception: rollback, 400

/-! ## Audit endpoints (`gateway/api/v1/audit.py`) -/

/-- One entry of the audit query response: the manifest row joined with its
first seal (`manifest.seals[0]`). -/
structure AuditRow where
  manifest_id : List Char
  created_at : List Char
  agent_id : List Char
  org_id : List Char
  provider : List Char
  method : List Char
  parameters : Json
  reasoning : List Char
  environment : List Char
  approved : Option Bool
  policy_version : Option (List Char)
  denial_reason : Option (List Char)
  seal_id : Option (List Char)
  was_executed : Option Bool
deriving Repr

/-- The audit query response. -/
structure AuditQueryResponse where
  total : Nat
  limit : Nat
  offset : Nat
  results : List AuditRow
deriving Repr

/-- Render one manifest row with its first associated seal. -/
def auditRowOf (db : DB) (r : ManifestRecord) : AuditRow :=
  let s := db.seals.find? (fun s => s.manifest_id = r.manifest_id)
  { manifest_id := r.manifest_id, created_at := r.created_at,
    agent_id := r.agent_id, org_id := r.org_id, provider := r.provider,
    method := r.method, parameters := r.parameters,
    reasoning := r.reasoning, environment := r.environment,
    approved := s.map (·.approved),
    policy_version := s.map (·.policy_version),
    denial_reason := s.bind (·.denial_reason),
    seal_id := s.map (·.seal_id),
    was_executed := s.map (·.was_executed) }

/-- `GET /v1/audit/query`: when the caller is authenticated, the caller's
org replaces the user-supplied `org_id` parameter; then delegate to
`query_manifests` and render the rows. -/
def queryAuditTrail (auth : Option AuthContext)
    (org_id agent_id provider : Option (List Char))
    (approved_only : Option Bool) (limit offset : Nat) (db : DB) :
    AuditQueryResponse :=
  let effective_org_id := match auth with
    | some a => some a.org_id
    | none => org_id
  let ms := queryManifests effective_org_id agent_id provider approved_only
              limit offset db
  { total := ms.length, limit := limit, offset := offset,
    results := ms.map (auditRowOf db) }

/-- The audit stats response.  `approval_rate` is a rounded float in the
source, computed from `approved` and `total_manifests` alone; it is omitted
here (floats are outside the model) and carries no extra information. -/
structure AuditStats where
  total_manifests : Nat
  approved : Nat
  denied : Nat
  executed : Nat
deriving Repr, DecidableEq

/-- Rows of the inner join of a manifest list with the seals table. -/
def joinCount (db : DB) (ms : List ManifestRecord) (p : Seal → Bool) : Nat :=
  (ms.map (fun r =>
    (db.seals.filter (fun s => s.manifest_id = r.manifest_id && p s)).length)).sum

/-- `GET /v1/audit/stats`: the same forced org scoping, then counts over
the filtered manifests joined with seals. -/
def getAuditStats (auth : Option AuthContext)
    (org_id agent_id : Option (List Char)) (db : DB) : AuditStats :=
  let effective_org_id := match auth with
    | some a => some a.org_id
    | none => org_id
  let q := optFilter effective_org_id (·.org_id) db.manifests
  let q := optFilter agent_id (·.agent_id) q
  { total_manifests := q.length
    approved := joinCount db q (·.approved)
    denied := joinCount db q (fun s => !s.approved)
    executed := joinCount db q (·.was_executed) }

/-! ## Organization endpoint (`gateway/api/v1/orgs.py`) -/

/-- `OrganizationInfoResponse` (the fields the claims touch). -/
structure OrganizationInfoResponse where
  org_id : List Char
  org_name : List Char
  agents_count : Nat
  is_active : Bool
deriving Repr, DecidableEq

/-- `GET /v1/orgs/{org_id}` after its `verify_jwt` dependency succeeded:
403 when the requested org is not the caller's — with no auth-event write
on that path — then 404 when absent, else the org details. -/
def getOrganization (auth : AuthContext) (org_id : List Char) (db : DB) :
    HttpResult OrganizationInfoResponse × DB :=
  if org_id ≠ auth.org_id then (.error 403, db)
  else
    match db.orgs.find? (fun o => o.org_id = org_id) with
    | none => (.error 404, db)
    | some org =>
      (.ok { org_id := org.org_id, org_name := org.org_name,
             agents_count := (db.agents.filter
               (fun a => a.org_id = org_id)).length,
             is_active := org.is_active }, db)

/-! ## Serializer facts: decimal numerals -/

/-- Numeric value of a decimal digit string (proof tool). -/
def digitsVal (cs : List Char) : Nat :=
  cs.foldl (fun a c => a * 10 + (c.toNat - 48)) 0

/-- A list of characters whose head, if any, is not a decimal digit.  This
is the follow-set condition that makes numerals uniquely decodable; every
continuation inside a serialized JSON document starts with one of
`,`, `:`, `]`, `}`, `"` or is empty. -/
def noDigitHead : List Char → Prop
  | [] => True
  | c :: _ => c.isDigit = false

theorem digitChar_toNat : ∀ d < 10, (digitChar d).toNat = 48 + d := by decide

theorem digitChar_isDigit : ∀ d < 10, (digitChar d).isDigit = true := by decide

theorem digitChar_inj : ∀ d₁ < 10, ∀ d₂ < 10,
    digitChar d₁ = digitChar d₂ → d₁ = d₂ := by decide

theorem natDigits_ne_nil (n : Nat) : natDigits n ≠ [] := by
  rw [natDigits]
  split <;> simp

theorem natDigits_digits (n : Nat) : ∀ c ∈ natDigits n, c.isDigit = true := by
  induction n using Nat.strong_induction_on with
  | _ n ih =>
    rw [natDigits]
    split
    · next h =>
      intro c hc
      simp only [List.mem_singleton] at hc
      exact hc ▸ digitChar_isDigit n h
    · next h =>
      intro c hc
      rcases List.mem_append.mp hc with h1 | h1
      · exact ih (n / 10) (Nat.div_lt_self (by omega) (by omega)) c h1
      · simp only [List.mem_singleton] at h1
        exact h1 ▸ digitChar_isDigit (n % 10) (Nat.mod_lt _ (by omega))

theorem digitsVal_append (xs : List Char) (c : Char) :
    digitsVal (xs ++ [c]) = digitsVal xs * 10 + (c.toNat - 48) := by
  simp [digitsVal, List.foldl_append]

theorem digitsVal_natDigits (n : Nat) : digitsVal (natDigits n) = n := by
  induction n using Nat.strong_induction_on with
  | _ n ih =>
    rw [natDigits]
    split
    · next h =>
      simp [digitsVal, digitChar_toNat n h]
    · next h =>
      rw [digitsVal_append, ih (n / 10) (Nat.div_lt_self (by omega) (by omega)),
        digitChar_toNat (n % 10) (Nat.mod_lt _ (by omega))]
      omega

theorem natDigits_inj {n₁ n₂ : Nat} (h : natDigits n₁ = natDigits n₂) :
    n₁ = n₂ := by
  have := digitsVal_natDigits n₁
  rw [h, digitsVal_natDigits] at this
  omega

theorem takeWhile_all_append {p : Char → Bool} {xs r : List Char}
    (hxs : ∀ c ∈ xs, p c = true) (hr : ∀ c t, r = c :: t → p c = false) :
    (xs ++ r).takeWhile p = xs ∧ (xs ++ r).dropWhile p = r := by
  induction xs with
  | nil =>
    cases r with
    | nil => simp
    | cons c t =>
      simp [List.takeWhile, List.dropWhile, hr c t rfl]
  | cons x xs ih =>
    have hx := hxs x (by simp)
    have := ih (fun c hc => hxs c (by simp [hc]))
    simp [List.takeWhile, List.dropWhile, hx, this.1, this.2]

theorem natDigits_ud {n₁ n₂ : Nat} {r₁ r₂ : List Char}
    (h : natDigits n₁ ++ r₁ = natDigits n₂ ++ r₂)
    (h₁ : noDigitHead r₁) (h₂ : noDigitHead r₂) :
    n₁ = n₂ ∧ r₁ = r₂ := by
  have hr₁ : ∀ c t, r₁ = c :: t → c.isDigit = false := by
    intro c t he; rw [he] at h₁; exact h₁
  have hr₂ : ∀ c t, r₂ = c :: t → c.isDigit = false := by
    intro c t he; rw [he] at h₂; exact h₂
  have t₁ := takeWhile_all_append (p := Char.isDigit)
    (natDigits_digits n₁) hr₁
  have t₂ := takeWhile_all_append (p := Char.isDigit)
    (natDigits_digits n₂) hr₂
  have hd : natDigits n₁ = natDigits n₂ := by
    rw [← t₁.1, ← t₂.1, h]
  refine ⟨natDigits_inj hd, ?_⟩
  rw [← t₁.2, ← t₂.2, h]

theorem natDigits_head (n : Nat) :
    ∃ c t, natDigits n = c :: t ∧ c.isDigit = true := by
  cases he : natDigits n with
  | nil => exact absurd he (natDigits_ne_nil n)
  | cons c t =>
    exact ⟨c, t, rfl, natDigits_digits n c (by rw [he]; simp)⟩

theorem serInt_ud {i₁ i₂ : Int} {r₁ r₂ : List Char}
    (h : serInt i₁ ++ r₁ = serInt i₂ ++ r₂)
    (h₁ : noDigitHead r₁) (h₂ : noDigitHead r₂) :
    i₁ = i₂ ∧ r₁ = r₂ := by
  unfold serInt at h
  obtain ⟨c₁, t₁, he₁, hd₁⟩ := natDigits_head i₁.natAbs
  obtain ⟨c₂, t₂, he₂, hd₂⟩ := natDigits_head i₂.natAbs
  split at h <;> split at h
  · next hn₁ hn₂ =>
    simp only [List.cons_append, List.cons.injEq] at h
    obtain ⟨hv, hr⟩ := natDigits_ud h.2 h₁ h₂
    exact ⟨by omega, hr⟩
  · next hn₁ hn₂ =>
    rw [he₂] at h
    simp only [List.cons_append, List.cons.injEq] at h
    rw [← h.1] at hd₂
    simp at hd₂
  · next hn₁ hn₂ =>
    rw [he₁] at h
    simp only [List.cons_append, List.cons.injEq] at h
    rw [h.1] at hd₁
    simp at hd₁
  · next hn₁ hn₂ =>
    obtain ⟨hv, hr⟩ := natDigits_ud h h₁ h₂
    exact ⟨by omega, hr⟩

/-! ## Serializer facts: the character escaper -/

theorem char_toNat_inj {c₁ c₂ : Char} (h : c₁.toNat = c₂.toNat) : c₁ = c₂ :=
  Char.eq_of_val_eq (UInt32.ext h)

theorem char_valid (c : Char) :
    c.toNat < 0xd800 ∨ (0xe000 ≤ c.toNat ∧ c.toNat < 0x110000) := by
  have h := c.valid
  unfold UInt32.isValidChar Nat.isValidChar at h
  exact h

/-- Numeric value of a lowercase hex digit (proof tool). -/
def hexVal (c : Char) : Nat :=
  if c.isDigit then c.toNat - 48 else c.toNat - 87

theorem hexVal_hexDigit : ∀ d < 16, hexVal (hexDigit d) = d := by decide

/-- Decode one character off the front of an escaped string body
(proof tool; inverts `escChar`). -/
def unescChar : List Char → Option (Char × List Char)
  | [] => none
  | c :: r =>
    if c = '\\' then
      match r with
      | '"' :: r' => some ('"', r')
      | '\\' :: r' => some ('\\', r')
      | 'b' :: r' => some ('\x08', r')
      | 'f' :: r' => some ('\x0c', r')
      | 'n' :: r' => some ('\n', r')
      | 'r' :: r' => some ('\r', r')
      | 't' :: r' => some ('\t', r')
      | 'u' :: a :: b :: e :: d :: r' =>
        let n := hexVal a * 4096 + hexVal b * 256 + hexVal e * 16 + hexVal d
        if 0xd800 ≤ n ∧ n < 0xdc00 then
          match r' with
          | '\\' :: 'u' :: a2 :: b2 :: e2 :: d2 :: r'' =>
            let n2 := hexVal a2 * 4096 + hexVal b2 * 256 +
                        hexVal e2 * 16 + hexVal d2
            some (Char.ofNat ((n - 0xd800) * 0x400 + (n2 - 0xdc00) + 0x10000),
                  r'')
          | _ => none
        else some (Char.ofNat n, r')
      | _ => none
    else some (c, r)

theorem hexVal4 (n : Nat) (hn : n < 0x10000) :
    hexVal (hexDigit (n / 4096 % 16)) * 4096 +
      hexVal (hexDigit (n / 256 % 16)) * 256 +
      hexVal (hexDigit (n / 16 % 16)) * 16 +
      hexVal (hexDigit (n % 16)) = n := by
  rw [hexVal_hexDigit _ (Nat.mod_lt _ (by norm_num)),
    hexVal_hexDigit _ (Nat.mod_lt _ (by norm_num)),
    hexVal_hexDigit _ (Nat.mod_lt _ (by norm_num)),
    hexVal_hexDigit _ (Nat.mod_lt _ (by norm_num))]
  omega

set_option maxHeartbeats 1000000 in
theorem unescChar_escChar (c : Char) (r : List Char) :
    unescChar (escChar c ++ r) = some (c, r) := by
  have hv := char_valid c
  unfold escChar
  split
  · next h => subst h; rfl
  · split
    · next h => subst h; rfl
    · split
      · next h => subst h; rfl
      · split
        · next h => subst h; rfl
        · split
          · next h => subst h; rfl
          · split
            · next h => subst h; rfl
            · split
              · next h => subst h; rfl
              · split
                · simp only [List.singleton_append, unescChar]
                  rw [if_neg (show ¬c = '\\' by assumption)]
                · split
                  · next h9 =>
                    simp only [hex4, List.cons_append, List.nil_append,
                      unescChar]
                    rw [if_pos trivial, hexVal4 c.toNat h9]
                    have hns : ¬(0xd800 ≤ c.toNat ∧ c.toNat < 0xdc00) := by
                      rcases hv with h | h <;> omega
                    rw [if_neg hns, Char.ofNat_toNat]
                  · next h9 =>
                    have hb : c.toNat < 0x110000 := by
                      rcases hv with h | h <;> omega
                    simp only [hex4, List.cons_append, List.nil_append,
                      List.append_assoc, unescChar]
                    rw [if_pos trivial,
                      hexVal4 (0xd800 + (c.toNat - 0x10000) / 0x400) (by omega),
                      hexVal4 (0xdc00 + (c.toNat - 0x10000) % 0x400) (by omega)]
                    rw [if_pos (by omega)]
                    have hn : (0xd800 + (c.toNat - 0x10000) / 0x400 - 0xd800) *
                        0x400 + (0xdc00 + (c.toNat - 0x10000) % 0x400 -
                        0xdc00) + 0x10000 = c.toNat := by omega
                    rw [hn, Char.ofNat_toNat]

theorem escChar_ud {c₁ c₂ : Char} {x y : List Char}
    (h : escChar c₁ ++ x = escChar c₂ ++ y) : c₁ = c₂ ∧ x = y := by
  have r₁ := unescChar_escChar c₁ x
  have r₂ := unescChar_escChar c₂ y
  rw [h, r₂] at r₁
  simp only [Option.some.injEq, Prod.mk.injEq] at r₁
  exact ⟨r₁.1.symm, r₁.2.symm⟩

theorem escChar_cons (c : Char) : ∃ d t, escChar c = d :: t ∧ d ≠ '"' := by
  unfold escChar
  repeat' split
  all_goals
    first
      | exact ⟨c, [], rfl, by assumption⟩
      | exact ⟨_, _, rfl, by decide⟩

theorem escStr_ud {s₁ s₂ r₁ r₂ : List Char}
    (h : escStr s₁ ++ '"' :: r₁ = escStr s₂ ++ '"' :: r₂) :
    s₁ = s₂ ∧ r₁ = r₂ := by
  induction s₁ generalizing s₂ with
  | nil =>
    cases s₂ with
    | nil => simpa [escStr] using h
    | cons c cs =>
      obtain ⟨d, t, he, hd⟩ := escChar_cons c
      rw [escStr, escStr, he] at h
      simp only [List.nil_append, List.cons_append, List.append_assoc,
        List.cons.injEq] at h
      exact absurd h.1.symm hd
  | cons c cs ih =>
    cases s₂ with
    | nil =>
      obtain ⟨d, t, he, hd⟩ := escChar_cons c
      rw [escStr, escStr, he] at h
      simp only [List.nil_append, List.cons_append, List.append_assoc,
        List.cons.injEq] at h
      exact absurd h.1 hd
    | cons c' cs' =>
      rw [escStr, escStr, List.append_assoc, List.append_assoc] at h
      obtain ⟨hc, ht⟩ := escChar_ud h
      obtain ⟨hs, hr⟩ := ih ht
      exact ⟨by rw [hc, hs], hr⟩

theorem serStr_ud {s₁ s₂ r₁ r₂ : List Char}
    (h : serStr s₁ ++ r₁ = serStr s₂ ++ r₂) : s₁ = s₂ ∧ r₁ = r₂ := by
  rw [serStr, serStr] at h
  simp only [List.cons_append, List.append_assoc, List.singleton_append,
    List.cons.injEq, true_and] at h
  exact escStr_ud h

/-! ## Serializer facts: unique decodability of documents -/

theorem serInt_head (i : Int) :
    ∃ c t, serInt i = c :: t ∧ (c.isDigit = true ∨ c = '-') := by
  unfold serInt
  split
  · exact ⟨'-', _, rfl, Or.inr rfl⟩
  · obtain ⟨c, t, he, hd⟩ := natDigits_head i.natAbs
    exact ⟨c, t, he, Or.inl hd⟩

/-- The first character a serialized JSON document can start with. -/
theorem serJson_cons (v : Json) :
    ∃ c t, serJson v = c :: t ∧
      (c.isDigit = true ∨ c ∈ ['n', 't', 'f', '-', '"', '[', '\x7b']) := by
  cases v with
  | null => exact ⟨'n', _, rfl, by decide⟩
  | bool b => cases b with
    | true => exact ⟨'t', _, rfl, by decide⟩
    | false => exact ⟨'f', _, rfl, by decide⟩
  | num i =>
    obtain ⟨c, t, he, hd⟩ := serInt_head i
    refine ⟨c, t, by simp [serJson, he], ?_⟩
    rcases hd with h | h
    · exact Or.inl h
    · exact Or.inr (by simp [h])
  | str s => exact ⟨'"', _, rfl, by decide⟩
  | arr xs => exact ⟨'[', _, rfl, by decide⟩
  | obj fs => exact ⟨'\x7b', _, rfl, by decide⟩

/-- A serialized document never starts with a closing delimiter or a
separator. -/
theorem serJson_ne_head {v : Json} {r l : List Char} {d : Char}
    (hd : d.isDigit = false)
    (hd2 : d ∉ (['n', 't', 'f', '-', '"', '[', '\x7b'] : List Char)) :
    serJson v ++ r ≠ d :: l := by
  obtain ⟨c, t, he, hc⟩ := serJson_cons v
  rw [he]
  intro h
  simp only [List.cons_append, List.cons.injEq] at h
  rcases hc with h1 | h1
  · rw [h.1] at h1; rw [h1] at hd; cases hd
  · rw [h.1] at h1; exact hd2 h1

/-- Separator tail used by `serItems` on a nonempty rest (proof tool). -/
def serSep : List Json → List Char
  | [] => []
  | xs => ',' :: serItems xs

theorem serItems_cons (x : Json) (xs : List Json) :
    serItems (x :: xs) = serJson x ++ serSep xs := by
  cases xs <;> simp [serItems, serSep]

/-- Separator tail used by `serFields` on a nonempty rest (proof tool). -/
def serFSep : List (List Char × Json) → List Char
  | [] => []
  | fs => ',' :: serFields fs

theorem serFields_cons (k : List Char) (v : Json)
    (fs : List (List Char × Json)) :
    serFields ((k, v) :: fs) = serStr k ++ ':' :: (serJson v ++ serFSep fs) := by
  cases fs <;> simp [serFields, serFSep]

theorem ndh_serSep {xs : List Json} {cl : Char} (hcl : cl.isDigit = false)
    (r : List Char) : noDigitHead (serSep xs ++ cl :: r) := by
  cases xs <;> simp [serSep, noDigitHead, hcl]

theorem ndh_serFSep {fs : List (List Char × Json)} {cl : Char}
    (hcl : cl.isDigit = false) (r : List Char) :
    noDigitHead (serFSep fs ++ cl :: r) := by
  cases fs <;> simp [serFSep, noDigitHead, hcl]

/-- A serialized numeral never starts with a non-digit other than `-`. -/
theorem serInt_ne_head {i : Int} {r l : List Char} {d : Char}
    (hd : d.isDigit = false) (hd2 : d ≠ '-') : serInt i ++ r ≠ d :: l := by
  obtain ⟨c, t, he, hc⟩ := serInt_head i
  rw [he]
  intro h
  simp only [List.cons_append, List.cons.injEq] at h
  rcases hc with h1 | h1
  · rw [h.1] at h1; rw [h1] at hd; cases hd
  · rw [h.1] at h1; exact hd2 h1

/-- The three unique-decodability statements, bounded by document size so
that they can be proved together by strong induction. -/
def UdAt (n : Nat) : Prop :=
  (∀ v₁ v₂ : Json, ∀ r₁ r₂ : List Char, sizeOf v₁ ≤ n →
    serJson v₁ ++ r₁ = serJson v₂ ++ r₂ →
    noDigitHead r₁ → noDigitHead r₂ → v₁ = v₂ ∧ r₁ = r₂) ∧
  (∀ xs₁ xs₂ : List Json, ∀ r₁ r₂ : List Char, sizeOf xs₁ ≤ n →
    serItems xs₁ ++ ']' :: r₁ = serItems xs₂ ++ ']' :: r₂ →
    xs₁ = xs₂ ∧ r₁ = r₂) ∧
  (∀ fs₁ fs₂ : List (List Char × Json), ∀ r₁ r₂ : List Char,
    sizeOf fs₁ ≤ n →
    serFields fs₁ ++ '\x7d' :: r₁ = serFields fs₂ ++ '\x7d' :: r₂ →
    fs₁ = fs₂ ∧ r₁ = r₂)

theorem udAt (n : Nat) : UdAt n := by
  induction n using Nat.strong_induction_on with
  | _ n ih =>
    have recJ : ∀ v₁ v₂ : Json, ∀ r₁ r₂ : List Char, sizeOf v₁ < n →
        serJson v₁ ++ r₁ = serJson v₂ ++ r₂ →
        noDigitHead r₁ → noDigitHead r₂ → v₁ = v₂ ∧ r₁ = r₂ :=
      fun v₁ v₂ r₁ r₂ hlt => (ih _ hlt).1 v₁ v₂ r₁ r₂ le_rfl
    have recI : ∀ xs₁ xs₂ : List Json, ∀ r₁ r₂ : List Char,
        sizeOf xs₁ < n →
        serItems xs₁ ++ ']' :: r₁ = serItems xs₂ ++ ']' :: r₂ →
        xs₁ = xs₂ ∧ r₁ = r₂ :=
      fun xs₁ xs₂ r₁ r₂ hlt => (ih _ hlt).2.1 xs₁ xs₂ r₁ r₂ le_rfl
    have recF : ∀ fs₁ fs₂ : List (List Char × Json), ∀ r₁ r₂ : List Char,
        sizeOf fs₁ < n →
        serFields fs₁ ++ '\x7d' :: r₁ = serFields fs₂ ++ '\x7d' :: r₂ →
        fs₁ = fs₂ ∧ r₁ = r₂ :=
      fun fs₁ fs₂ r₁ r₂ hlt => (ih _ hlt).2.2 fs₁ fs₂ r₁ r₂ le_rfl
    refine ⟨?_, ?_, ?_⟩
    · -- documents
      intro v₁ v₂ r₁ r₂ hn h h₁ h₂
      cases v₁ with
      | null =>
        cases v₂ with
        | null => simpa [serJson] using h
        | bool b => cases b <;> simp [serJson] at h
        | num i =>
          simp only [serJson] at h
          exact absurd h.symm (serInt_ne_head (by decide) (by decide))
        | str s => simp [serJson, serStr] at h
        | arr xs => simp [serJson] at h
        | obj fs => simp [serJson] at h
      | bool b =>
        cases v₂ with
        | null => cases b <;> simp [serJson] at h
        | bool b' =>
          cases b <;> cases b' <;> simp [serJson] at h <;> simp [h]
        | num i =>
          cases b <;>
            · simp only [serJson] at h
              exact absurd h.symm (serInt_ne_head (by decide) (by decide))
        | str s => cases b <;> simp [serJson, serStr] at h
        | arr xs => cases b <;> simp [serJson] at h
        | obj fs => cases b <;> simp [serJson] at h
      | num i =>
        cases v₂ with
        | null =>
          simp only [serJson] at h
          exact absurd h (serInt_ne_head (by decide) (by decide))
        | bool b =>
          cases b <;>
            · simp only [serJson] at h
              exact absurd h (serInt_ne_head (by decide) (by decide))
        | num i' =>
          simp only [serJson] at h
          obtain ⟨hv, hr⟩ := serInt_ud h h₁ h₂
          exact ⟨by rw [hv], hr⟩
        | str s =>
          simp only [serJson, serStr] at h
          exact absurd h (serInt_ne_head (by decide) (by decide))
        | arr xs =>
          simp only [serJson] at h
          exact absurd h (serInt_ne_head (by decide) (by decide))
        | obj fs =>
          simp only [serJson] at h
          exact absurd h (serInt_ne_head (by decide) (by decide))
      | str s =>
        cases v₂ with
        | null => simp [serJson, serStr] at h
        | bool b => cases b <;> simp [serJson, serStr] at h
        | num i =>
          simp only [serJson, serStr] at h
          exact absurd h.symm (serInt_ne_head (by decide) (by decide))
        | str s' =>
          simp only [serJson] at h
          obtain ⟨hv, hr⟩ := serStr_ud h
          exact ⟨by rw [hv], hr⟩
        | arr xs => simp [serJson, serStr] at h
        | obj fs => simp [serJson, serStr] at h
      | arr xs =>
        cases v₂ with
        | null => simp [serJson] at h
        | bool b => cases b <;> simp [serJson] at h
        | num i =>
          simp only [serJson] at h
          exact absurd h.symm (serInt_ne_head (by decide) (by decide))
        | str s => simp [serJson, serStr] at h
        | arr xs' =>
          simp only [serJson, List.cons_append, List.append_assoc,
            List.singleton_append, List.cons.injEq, true_and] at h
          have hsz : sizeOf xs < n := by
            have : sizeOf (Json.arr xs) = 1 + sizeOf xs := by simp
            omega
          obtain ⟨hv, hr⟩ := recI xs xs' r₁ r₂ hsz h
          exact ⟨by rw [hv], hr⟩
        | obj fs => simp [serJson] at h
      | obj fs =>
        cases v₂ with
        | null => simp [serJson] at h
        | bool b => cases b <;> simp [serJson] at h
        | num i =>
          simp only [serJson] at h
          exact absurd h.symm (serInt_ne_head (by decide) (by decide))
        | str s => simp [serJson, serStr] at h
        | arr xs => simp [serJson] at h
        | obj fs' =>
          simp only [serJson, List.cons_append, List.append_assoc,
            List.singleton_append, List.cons.injEq, true_and] at h
          have hsz : sizeOf fs < n := by
            have : sizeOf (Json.obj fs) = 1 + sizeOf fs := by simp
            omega
          obtain ⟨hv, hr⟩ := recF fs fs' r₁ r₂ hsz h
          exact ⟨by rw [hv], hr⟩
    · -- element lists
      intro xs₁ xs₂ r₁ r₂ hn h
      cases xs₁ with
      | nil =>
        cases xs₂ with
        | nil => simpa [serItems] using h
        | cons x xs =>
          rw [serItems_cons, List.append_assoc] at h
          simp only [serItems, List.nil_append] at h
          exact absurd h.symm (serJson_ne_head (by decide) (by decide))
      | cons x₁ xs₁ =>
        cases xs₂ with
        | nil =>
          rw [serItems_cons, List.append_assoc] at h
          simp only [serItems, List.nil_append] at h
          exact absurd h (serJson_ne_head (by decide) (by decide))
        | cons x₂ xs₂ =>
          rw [serItems_cons, serItems_cons, List.append_assoc,
            List.append_assoc] at h
          have hx₁ : sizeOf x₁ < n := by
            have : sizeOf (x₁ :: xs₁) = 1 + sizeOf x₁ + sizeOf xs₁ := by simp
            omega
          obtain ⟨hx, hr⟩ := recJ x₁ x₂ _ _ hx₁ h
            (ndh_serSep (by decide) r₁) (ndh_serSep (by decide) r₂)
          have htl : sizeOf xs₁ < n := by
            have : sizeOf (x₁ :: xs₁) = 1 + sizeOf x₁ + sizeOf xs₁ := by simp
            omega
          cases xs₁ with
          | nil =>
            cases xs₂ with
            | nil =>
              simp only [serSep, List.nil_append, List.cons.injEq,
                true_and] at hr
              exact ⟨by rw [hx], hr⟩
            | cons y ys => simp [serSep] at hr
          | cons y₁ ys₁ =>
            cases xs₂ with
            | nil => simp [serSep] at hr
            | cons y₂ ys₂ =>
              simp only [serSep, List.cons_append, List.cons.injEq,
                true_and] at hr
              obtain ⟨hxs, hr'⟩ := recI (y₁ :: ys₁) (y₂ :: ys₂) r₁ r₂ htl hr
              exact ⟨by rw [hx, hxs], hr'⟩
    · -- field lists
      intro fs₁ fs₂ r₁ r₂ hn h
      cases fs₁ with
      | nil =>
        cases fs₂ with
        | nil => simpa [serFields] using h
        | cons f fs =>
          obtain ⟨k, v⟩ := f
          rw [serFields_cons, List.append_assoc] at h
          simp only [serFields, List.nil_append, serStr, List.cons_append,
            List.cons.injEq] at h
          exact absurd h.1.symm (by decide)
      | cons f₁ fs₁ =>
        obtain ⟨k₁, v₁⟩ := f₁
        cases fs₂ with
        | nil =>
          rw [serFields_cons, List.append_assoc] at h
          simp only [serFields, List.nil_append, serStr, List.cons_append,
            List.cons.injEq] at h
          exact absurd h.1 (by decide)
        | cons f₂ fs₂ =>
          obtain ⟨k₂, v₂⟩ := f₂
          rw [serFields_cons, serFields_cons, List.append_assoc,
            List.append_assoc] at h
          obtain ⟨hk, h'⟩ := serStr_ud h
          simp only [List.cons_append, List.cons.injEq, true_and] at h'
          rw [List.append_assoc, List.append_assoc] at h'
          have hv₁ : sizeOf v₁ < n := by
            have h1 : sizeOf ((k₁, v₁) :: fs₁) =
                1 + (1 + sizeOf k₁ + sizeOf v₁) + sizeOf fs₁ := by simp
            omega
          obtain ⟨hv, hr⟩ := recJ v₁ v₂ _ _ hv₁ h'
            (ndh_serFSep (by decide) r₁) (ndh_serFSep (by decide) r₂)
          have htl : sizeOf fs₁ < n := by
            have h1 : sizeOf ((k₁, v₁) :: fs₁) =
                1 + (1 + sizeOf k₁ + sizeOf v₁) + sizeOf fs₁ := by simp
            omega
          cases fs₁ with
          | nil =>
            cases fs₂ with
            | nil =>
              simp only [serFSep, List.nil_append, List.cons.injEq,
                true_and] at hr
              exact ⟨by rw [hk, hv], hr⟩
            | cons g gs => simp [serFSep] at hr
          | cons g₁ gs₁ =>
            cases fs₂ with
            | nil => simp [serFSep] at hr
            | cons g₂ gs₂ =>
              simp only [serFSep, List.cons_append, List.cons.injEq,
                true_and] at hr
              obtain ⟨hfs, hr'⟩ := recF (g₁ :: gs₁) (g₂ :: gs₂) r₁ r₂ htl hr
              exact ⟨by rw [hk, hv, hfs], hr'⟩

/-- Unique decodability of the canonical serializer: a serialized document
determines both the document and the rest of the input, provided the rest
does not begin with a digit (which only matters after a bare numeral). -/
theorem serJson_ud {v₁ v₂ : Json} {r₁ r₂ : List Char}
    (h : serJson v₁ ++ r₁ = serJson v₂ ++ r₂)
    (h₁ : noDigitHead r₁) (h₂ : noDigitHead r₂) : v₁ = v₂ ∧ r₁ = r₂ :=
  (udAt (sizeOf v₁)).1 v₁ v₂ r₁ r₂ le_rfl h h₁ h₂

/-- Unique decodability of object field lists closed by `}`. -/
theorem serFields_ud {fs₁ fs₂ : List (List Char × Json)}
    {r₁ r₂ : List Char}
    (h : serFields fs₁ ++ '\x7d' :: r₁ = serFields fs₂ ++ '\x7d' :: r₂) :
    fs₁ = fs₂ ∧ r₁ = r₂ :=
  (udAt (sizeOf fs₁)).2.2 fs₁ fs₂ r₁ r₂ le_rfl h

/-! ## The canonical payload in sorted-key form -/

/-- `sort_keys=True` puts the nine payload fields into this fixed order. -/
theorem createSignablePayload_eq (m : Manifest) (pv : List Char) (ap : Bool) :
    createSignablePayload m pv ap = serJson (Json.obj
      [("agent_id".data, Json.str m.agent.agent_id),
       ("approved".data, Json.bool ap),
       ("manifest_id".data, Json.str m.manifest_id),
       ("method".data, Json.str m.action.method),
       ("org_id".data, Json.str m.agent.org_id),
       ("parameters".data, m.action.parameters),
       ("policy_version".data, Json.str pv),
       ("provider".data, Json.str m.action.provider),
       ("timestamp".data, Json.str m.timestamp)]) := rfl

/-- The canonical payload is injective in all nine signed fields. -/
theorem createSignablePayload_inj {m₁ m₂ : Manifest} {pv₁ pv₂ : List Char}
    {ap₁ ap₂ : Bool}
    (h : createSignablePayload m₁ pv₁ ap₁ = createSignablePayload m₂ pv₂ ap₂) :
    m₁.agent.agent_id = m₂.agent.agent_id ∧ ap₁ = ap₂ ∧
    m₁.manifest_id = m₂.manifest_id ∧ m₁.action.method = m₂.action.method ∧
    m₁.agent.org_id = m₂.agent.org_id ∧
    m₁.action.parameters = m₂.action.parameters ∧ pv₁ = pv₂ ∧
    m₁.action.provider = m₂.action.provider ∧ m₁.timestamp = m₂.timestamp := by
  rw [createSignablePayload_eq, createSignablePayload_eq] at h
  simp only [serJson, List.cons_append] at h
  rw [List.cons_eq_cons] at h
  obtain ⟨hf, -⟩ := serFields_ud h.2
  simp only [List.cons.injEq, Prod.mk.injEq, Json.str.injEq,
    Json.bool.injEq, eq_self_iff_true, true_and, and_true] at hf
  tauto

/-! ## Claim C6: the canonical payload format -/

/-- Modelled from the spec's words, for comparison with the source's
`_create_signable_payload`: a JSON object of exactly the nine listed
fields, keys sorted (at every nesting level — nested `parameters` objects
are in canonical key-sorted form, see the module comment), `,` and `:`
separators, no whitespace.  JSON booleans render as `true`/`false`. -/
def specCanonicalPayload (m : Manifest) (policy_version : List Char)
    (approved : Bool) : List Char :=
  ['\x7b'] ++ serStr "agent_id".data ++ [':'] ++ serStr m.agent.agent_id
  ++ [','] ++ serStr "approved".data ++ [':']
    ++ (if approved then "true".data else "false".data)
  ++ [','] ++ serStr "manifest_id".data ++ [':'] ++ serStr m.manifest_id
  ++ [','] ++ serStr "method".data ++ [':'] ++ serStr m.action.method
  ++ [','] ++ serStr "org_id".data ++ [':'] ++ serStr m.agent.org_id
  ++ [','] ++ serStr "parameters".data ++ [':']
    ++ serJson m.action.parameters
  ++ [','] ++ serStr "policy_version".data ++ [':'] ++ serStr policy_version
  ++ [','] ++ serStr "provider".data ++ [':'] ++ serStr m.action.provider
  ++ [','] ++ serStr "timestamp".data ++ [':'] ++ serStr m.timestamp
  ++ ['\x7d']

/-- Claim C6: for every manifest, policy version and approved flag, the
byte string that is signed (and re-derived at verification) is exactly the
canonical serialization the spec describes: the JSON object of the nine
fields with keys sorted, `(',', ':')` separators and no whitespace — so it
is a deterministic function of those values (it is a function by
construction).  UTF-8 encoding of this character string is injective, so
the statement carries over to the byte level. -/
theorem claim_C6 (m : Manifest) (policy_version : List Char)
    (approved : Bool) :
    createSignablePayload m policy_version approved =
      specCanonicalPayload m policy_version approved := by
  rw [createSignablePayload_eq]
  cases approved <;>
    simp [serJson, serFields, specCanonicalPayload, serStr]

/-! ## Claim C1: signature faithfulness round trip -/

/-- Claim C1: a seal minted by `create_seal` verifies true against the
manifest it was minted for; and any change to the manifest's
provider, method, parameters, agent_id or org_id, or to the seal's stored
`approved` or `policy_version` (any combination, i.e. any mutation of the
signed bytes of those fields), makes `verify_seal` return false. -/
theorem claim_C1 (sk : Nat) (now ttl : Int) (dr : Option (List Char))
    (m m' : Manifest) (ap ap' : Bool) (pv pv' : List Char)
    (hne : ¬(m'.agent.agent_id = m.agent.agent_id ∧
             m'.agent.org_id = m.agent.org_id ∧
             m'.action.provider = m.action.provider ∧
             m'.action.method = m.action.method ∧
             m'.action.parameters = m.action.parameters ∧
             ap' = ap ∧ pv' = pv)) :
    verifySeal (createSeal sk now m ap pv dr ttl) m = true ∧
    verifySeal
      { createSeal sk now m ap pv dr ttl with
          approved := ap', policy_version := pv' } m' = false := by
  constructor
  · simp [verifySeal, createSeal, edVerify, edSign, edPublicKey]
  · simp only [verifySeal, createSeal, edVerify, edSign, edPublicKey]
    rw [beq_eq_false_iff_ne]
    intro hcontra
    have hmk : createSignablePayload m pv ap =
        createSignablePayload m' pv' ap' := by
      have := congrArg Sig.msg hcontra
      simpa using this
    obtain ⟨h1, h2, h3, h4, h5, h6, h7, h8, h9⟩ :=
      createSignablePayload_inj hmk
    exact hne ⟨h1.symm, h5.symm, h8.symm, h4.symm, h6.symm, h2.symm, h7.symm⟩

/-- Concrete manifest used by witnesses. -/
def exampleManifest : Manifest :=
  { manifest_id := "550e8400-e29b-41d4-a716-446655440000".data
    version := "1.0".data
    timestamp := "2026-01-17T10:30:00".data
    agent := { agent_id := "agent_acme_admin".data
               org_id := "org_1234567890abcdef".data
               user_id := none }
    action := { provider := "stripe".data
                method := "create_payment".data
                parameters := Json.obj
                  [("amount".data, Json.num 4000),
                   ("currency".data, Json.str "USD".data)] }
    justification := { reasoning := "demo".data }
    environment := "production".data }

/-- A mutation of `exampleManifest`: one byte of the provider changed. -/
def exampleManifestMutated : Manifest :=
  { exampleManifest with
      action := { exampleManifest.action with provider := "strip3".data } }

/-- Witness for C1 at a concrete manifest, key and version: the honest
seal verifies, and the provider-mutated manifest fails verification. -/
theorem claim_C1_witness :
    verifySeal (createSeal 7 100 exampleManifest true "v1.2.3".data none 5)
      exampleManifest = true ∧
    verifySeal
      { createSeal 7 100 exampleManifest true "v1.2.3".data none 5 with
          approved := true, policy_version := "v1.2.3".data }
      exampleManifestMutated = false :=
  claim_C1 7 100 5 none exampleManifest exampleManifestMutated true true
    "v1.2.3".data "v1.2.3".data
    (fun h => absurd h.2.2.1 (by decide))

/-! ## Claim C10: verification trusts the embedded key -/

/-- Claim C10: `verify_seal` checks the signature against the seal's own
stored public key.  For any key pair — not only the server's — a seal
carrying that public key and that key's signature over the canonical
payload of the manifest and the seal's own `approved`/`policy_version`
verifies true, whatever its other fields say; a passing check therefore
establishes only internal consistency with the embedded key, not seal
provenance. -/
theorem claim_C10 (sk : Nat) (m : Manifest) (ap : Bool)
    (pv seal_id manifest_id : List Char) (dr : Option (List Char))
    (issued_at expires_at : Int) (was_executed : Bool)
    (executed_at : Option Int) :
    verifySeal
      { seal_id := seal_id, manifest_id := manifest_id, approved := ap,
        policy_version := pv, denial_reason := dr,
        signature := edSign sk (createSignablePayload m pv ap),
        public_key := edPublicKey sk, issued_at := issued_at,
        expires_at := expires_at, was_executed := was_executed,
        executed_at := executed_at } m = true := by
  simp [verifySeal, edVerify, edSign, edPublicKey]

/-! ## Claim C2: fail-closed atomicity -/

/-- Claim C2: whenever the policy evaluator call raises (timeout,
connection refusal, an HTTP error status, or a response missing the
`result` field all produce `PolicyEngineError`), and the request gets as
far as the evaluator call (no 403 short-circuit), validate returns 503 and
the store is exactly as before: no manifest row, no seal row, no event. -/
theorem claim_C2 (sk : Nat) (now ttl : Int) (auth : Option AuthContext)
    (manifest : Manifest) (dry_run : Bool) (opa : OpaOutcome)
    (pv : List Char) (db : DB) (e : List Char)
    (hAuth : ∀ a, auth = some a → manifest.agent.org_id = a.org_id)
    (hErr : policyEvaluate opa = .error e) :
    validateManifest sk now ttl auth manifest dry_run opa pv db =
      (.error 503, db) := by
  cases auth with
  | none =>
    simp only [validateManifest, validateManifest.validateManifestCore, hErr]
  | some a =>
    have := hAuth a rfl
    simp only [validateManifest, this, ne_eq, not_true_eq_false, if_false,
      ite_false, validateManifest.validateManifestCore, hErr]

/-- Witness for C2: a concrete store, an authenticated caller whose org
matches, and a timed-out evaluator: the result is a bare 503 with the
store untouched. -/
theorem claim_C2_witness :
    validateManifest 7 100 5
      (some ⟨"agent_acme_admin".data, "org_1234567890abcdef".data⟩)
      exampleManifest false OpaOutcome.timeout "v1.2.3".data DB.empty =
      (.error 503, DB.empty) :=
  claim_C2 7 100 5 _ exampleManifest false OpaOutcome.timeout "v1.2.3".data
    DB.empty _ (fun a ha => by cases ha; rfl) rfl

/-! ## Claim C9: denial seals are persisted but not returned -/

/-- An approved evaluation carries no denial reason. -/
theorem policyEvaluate_approved_none {opa : OpaOutcome}
    {r : Option (List Char)} (h : policyEvaluate opa = .ok (true, r)) :
    r = none := by
  unfold policyEvaluate at h
  cases opa with
  | timeout => cases h
  | connectionError => cases h
  | response status body =>
    simp only at h
    split at h
    · cases h
    · cases body with
      | malformed => cases h
      | missingResult => cases h
      | result allow reason =>
        simp only at h
        split at h
        · simp only [Except.ok.injEq, Prod.mk.injEq, true_and] at h
          exact h.symm
        · simp only [Except.ok.injEq, Prod.mk.injEq] at h
          exact absurd h.1 (by simp)

/-- Claim C9: on a non-dry-run validate that reaches a policy decision,
the seal is constructed and persisted (appended after the manifest row)
whatever the decision was; the response carries the seal exactly when the
decision is approved, and `denial_reason` is absent exactly then. -/
theorem claim_C9 (sk : Nat) (now ttl : Int) (auth : Option AuthContext)
    (manifest : Manifest) (opa : OpaOutcome) (pv : List Char) (db : DB)
    (approved : Bool) (dr : Option (List Char))
    (hAuth : ∀ a, auth = some a → manifest.agent.org_id = a.org_id)
    (hEval : policyEvaluate opa = .ok (approved, dr)) :
    validateManifest sk now ttl auth manifest false opa pv db =
      (.ok { manifest_id := manifest.manifest_id
             approved := approved
             «seal» := if approved then
                 some (createSeal sk now manifest approved pv dr ttl)
               else none
             denial_reason := dr
             policy_version := pv },
       writeSeal (createSeal sk now manifest approved pv dr ttl)
         (writeManifest manifest db)) ∧
    (createSeal sk now manifest approved pv dr ttl).approved = approved ∧
    (createSeal sk now manifest approved pv dr ttl).denial_reason = dr ∧
    (writeSeal (createSeal sk now manifest approved pv dr ttl)
       (writeManifest manifest db)).seals =
      db.seals ++ [createSeal sk now manifest approved pv dr ttl] ∧
    (writeSeal (createSeal sk now manifest approved pv dr ttl)
       (writeManifest manifest db)).manifests =
      (writeManifest manifest db).manifests ∧
    (writeManifest manifest db).manifests.length =
      db.manifests.length + 1 ∧
    (approved = true → dr = none) := by
  refine ⟨?_, rfl, rfl, by simp [writeSeal, writeManifest], rfl,
    by simp [writeManifest], fun ha => policyEvaluate_approved_none
      (ha ▸ hEval)⟩
  cases auth with
  | none =>
    simp only [validateManifest, validateManifest.validateManifestCore,
      hEval, Bool.false_eq_true, if_false, ite_false]
  | some a =>
    have := hAuth a rfl
    simp only [validateManifest, this, ne_eq, not_true_eq_false, if_false,
      ite_false, validateManifest.validateManifestCore, hEval]
    simp

/-- Witness for C9 at a concrete denied decision: the denial seal lands in
the store, the response has `seal = null` and the denial reason. -/
theorem claim_C9_witness :
    validateManifest 7 100 5 none exampleManifest false
      (OpaOutcome.response 200 (OpaBody.result (some false)
        (some "amount above limit".data)))
      "v1.2.3".data DB.empty =
      (.ok { manifest_id := exampleManifest.manifest_id
             approved := false
             «seal» := none
             denial_reason := some "amount above limit".data
             policy_version := "v1.2.3".data },
       writeSeal (createSeal 7 100 exampleManifest false "v1.2.3".data
           (some "amount above limit".data) 5)
         (writeManifest exampleManifest DB.empty)) ∧
    (createSeal 7 100 exampleManifest false "v1.2.3".data
      (some "amount above limit".data) 5).approved = false := by
  have h := claim_C9 7 100 5 none exampleManifest
    (OpaOutcome.response 200 (OpaBody.result (some false)
      (some "amount above limit".data)))
    "v1.2.3".data DB.empty false (some "amount above limit".data)
    (fun a ha => by cases ha) rfl
  exact ⟨h.1, h.2.1⟩

/-! ## Claim C8: authorization-failure audit on tenant mismatch -/

/-- Counterexample to C8: a caller from `org_a` requesting `org_b` through
`GET /v1/orgs/{org_id}` gets the 403, but the store's auth-event table is
untouched — no `authorization_failure` row is written on that path, contra
the claim that every tenant-mismatch 403 is preceded by one. -/
theorem claim_C8_counterexample :
    (getOrganization ⟨"agent_a".data, "org_a".data⟩ "org_b".data
      DB.empty).1 = .error 403 ∧
    (getOrganization ⟨"agent_a".data, "org_a".data⟩ "org_b".data
      DB.empty).2.authEvents = [] := by
  exact ⟨rfl, rfl⟩

/-- Claim C8 as amended: on an authenticated validate whose manifest org
differs from the caller's, an `authorization_failure` event is appended to
the store returned with the 403 (the write happens before the response);
on a cross-tenant `GET /v1/orgs/{org_id}`, the endpoint returns 403 with
the store unchanged — no auth event is written there. -/
theorem claim_C8_amended :
    (∀ (sk : Nat) (now ttl : Int) (a : AuthContext) (manifest : Manifest)
       (dry_run : Bool) (opa : OpaOutcome) (pv : List Char) (db : DB),
      manifest.agent.org_id ≠ a.org_id →
      validateManifest sk now ttl (some a) manifest dry_run opa pv db =
        (.error 403,
         logAuthEvent db "authorization_failure".data false
           (some a.agent_id) (some a.org_id)
           (some "/v1/manifest/validate".data) none
           (some "Org mismatch".data))) ∧
    (∀ (ctx : AuthContext) (org_id : List Char) (db : DB),
      org_id ≠ ctx.org_id →
      getOrganization ctx org_id db = (.error 403, db)) := by
  constructor
  · intro sk now ttl a manifest dry_run opa pv db hne
    simp only [validateManifest, hne, ne_eq, not_false_eq_true, if_true,
      ite_true]
  · intro ctx org_id db hne
    simp only [getOrganization, hne, ne_eq, not_false_eq_true, if_true,
      ite_true]

/-- Witness for C8 (amended) at concrete inputs: the validate path writes
the failure event; the orgs path writes nothing. -/
theorem claim_C8_amended_witness :
    validateManifest 7 100 5 (some ⟨"agent_b_admin".data, "org_b".data⟩)
      exampleManifest false OpaOutcome.timeout "v1.2.3".data DB.empty =
      (.error 403,
       logAuthEvent DB.empty "authorization_failure".data false
         (some "agent_b_admin".data) (some "org_b".data)
         (some "/v1/manifest/validate".data) none
         (some "Org mismatch".data)) ∧
    getOrganization ⟨"agent_a".data, "org_a".data⟩ "org_b".data DB.empty =
      (.error 403, DB.empty) :=
  ⟨claim_C8_amended.1 7 100 5 _ exampleManifest false OpaOutcome.timeout
     "v1.2.3".data DB.empty (by decide),
   claim_C8_amended.2 _ "org_b".data DB.empty (by decide)⟩

/-! ## Claim C3: mark-executed semantics -/

/-- Claim C3 is right about the replay path and the success path, but not
about the missing-seal path: the endpoint's own `HTTPException(404)` is
raised inside the `try` whose handler re-raises every `Exception` as 400,
so an unknown seal id yields 400, not 404.  This theorem evaluates the
model at the failing input: the store holds no seal at all, the ledger
lookup returns `none` (the documented "not found" outcome the code maps
to its 404 raise), and the endpoint answers 400. -/
theorem claim_C3_code_bug_eval :
    getSeal DB.empty "seal_123_abc".data = none ∧
    markSealExecutedApi 0 "seal_123_abc".data DB.empty =
      (.error 400, DB.empty) := ⟨rfl, rfl⟩

/-! ## Claim C7: the verification report -/

/-- Claim C7: for a stored seal and its stored manifest, the endpoint's
report satisfies `valid = signature_valid ∧ ¬expired ∧ ¬already_executed ∧
approved`; `expired` holds exactly when the current instant is strictly
past `expires_at`; and the reason is chosen by the priority order bad
signature → denial → expired → already executed.  Signature verification
is a total function here (the source catches every exception and returns
`False`), so no exception can escape it. -/
theorem claim_C7 (now : Int) (sid : List Char) (db : DB) (s : Seal)
    (mrec : ManifestRecord)
    (hs : getSeal db sid = some s)
    (hm : getManifest db s.manifest_id = some mrec) :
    verifySealApi now sid db = .ok
      { seal_id := sid
        valid := verifySeal s mrec.manifest_json &&
          !(decide (now > s.expires_at)) && !s.was_executed && s.approved
        approved := s.approved
        expired := decide (now > s.expires_at)
        already_executed := s.was_executed
        reason :=
          if verifySeal s mrec.manifest_json = false then
            some "Invalid cryptographic signature".data
          else if s.approved = false then some ("Action was denied: ".data ++
            (match s.denial_reason with
             | some r => r
             | none => "None".data))
          else if now > s.expires_at then some "Seal has expired".data
          else if s.was_executed then
            some "Seal has already been executed".data
          else none
        manifest_id := s.manifest_id } ∧
    (decide (now > s.expires_at) = true ↔ now > s.expires_at) := by
  refine ⟨?_, by simp⟩
  unfold verifySealApi
  simp only [hs, hm]
  cases hsv : verifySeal s mrec.manifest_json <;>
    cases happ : s.approved <;>
      cases hex : s.was_executed <;>
        by_cases hexp : now > s.expires_at <;>
          simp [Seal.is_expired, hsv, happ, hex, hexp]

/-! ## Claim C4: tenant scoping noninterference -/

theorem mem_insertByCreatedDesc {r x : ManifestRecord}
    {l : List ManifestRecord} (h : r ∈ insertByCreatedDesc x l) :
    r = x ∨ r ∈ l := by
  induction l with
  | nil => simpa [insertByCreatedDesc] using h
  | cons y ys ih =>
    rw [insertByCreatedDesc] at h
    by_cases hc : lexLe y.created_at x.created_at
    · rw [if_pos hc] at h
      rcases List.mem_cons.mp h with h | h
      · exact Or.inl h
      · exact Or.inr h
    · rw [if_neg hc] at h
      rcases List.mem_cons.mp h with h | h
      · exact Or.inr (by simp [h])
      · rcases ih h with h' | h'
        · exact Or.inl h'
        · exact Or.inr (by simp [h'])

theorem mem_sortByCreatedDesc {r : ManifestRecord}
    {l : List ManifestRecord} (h : r ∈ sortByCreatedDesc l) : r ∈ l := by
  induction l with
  | nil => simp [sortByCreatedDesc] at h
  | cons x xs ih =>
    unfold sortByCreatedDesc at h
    rcases mem_insertByCreatedDesc h with h' | h'
    · simp [h']
    · simp [ih h']

theorem mem_optFilter {o : Option (List Char)}
    {sel : ManifestRecord → List Char} {q : List ManifestRecord}
    {r : ManifestRecord} (h : r ∈ optFilter o sel q) : r ∈ q := by
  cases o with
  | none => exact h
  | some x =>
    simp only [optFilter] at h
    by_cases hx : x = []
    · rwa [if_pos hx] at h
    · rw [if_neg hx] at h
      exact List.mem_of_mem_filter h

theorem optFilter_sel {x : List Char} {sel : ManifestRecord → List Char}
    {q : List ManifestRecord} {r : ManifestRecord} (hx : x ≠ [])
    (h : r ∈ optFilter (some x) sel q) : sel r = x := by
  simp only [optFilter] at h
  rw [if_neg hx] at h
  simpa using (List.of_mem_filter h)

theorem mem_approvedFilter {db : DB} {ap : Option Bool}
    {q : List ManifestRecord} {r : ManifestRecord}
    (h : r ∈ approvedFilter db ap q) : r ∈ q := by
  cases ap with
  | none => exact h
  | some b =>
    simp only [approvedFilter] at h
    exact List.mem_of_mem_filter h

/-- Every row a scoped `query_manifests` returns belongs to the forced
organization. -/
theorem queryManifests_org {O : List Char} (hO : O ≠ [])
    (agent_id provider : Option (List Char)) (ap : Option Bool)
    (lim off : Nat) (db : DB) {r : ManifestRecord}
    (h : r ∈ queryManifests (some O) agent_id provider ap lim off db) :
    r.org_id = O := by
  unfold queryManifests at h
  have h1 := List.take_subset _ _ h
  have h2 := List.drop_subset _ _ h1
  have h3 := mem_sortByCreatedDesc h2
  have h4 := mem_approvedFilter h3
  have h5 := mem_optFilter h4
  have h6 := mem_optFilter h5
  exact optFilter_sel hO h6

/-- Claim C4: for an authenticated audit query or stats request, the
caller's organization is forced onto the query: every returned row carries
the caller's `org_id`, and both the query response and the stats are
literally identical for any two values of the user-supplied `org_id`
parameter (which is never consulted), so the result is a function only of
the caller's org and the non-org filters. -/
theorem claim_C4 (ctx : AuthContext) (hO : ctx.org_id ≠ [])
    (o₁ o₂ agent_id provider : Option (List Char)) (ap : Option Bool)
    (lim off : Nat) (db : DB) :
    (∀ row ∈ (queryAuditTrail (some ctx) o₁ agent_id provider ap lim off
        db).results, row.org_id = ctx.org_id) ∧
    queryAuditTrail (some ctx) o₁ agent_id provider ap lim off db =
      queryAuditTrail (some ctx) o₂ agent_id provider ap lim off db ∧
    getAuditStats (some ctx) o₁ agent_id db =
      getAuditStats (some ctx) o₂ agent_id db := by
  refine ⟨?_, rfl, rfl⟩
  intro row hrow
  simp only [queryAuditTrail, List.mem_map] at hrow
  obtain ⟨r, hr, hrw⟩ := hrow
  rw [← hrw]
  exact queryManifests_org hO agent_id provider ap lim off db hr

/-- Witness for C4: one store with rows from two organizations; the
authenticated caller from the first org sees only its own rows whatever
`org_id` parameter is supplied. -/
theorem claim_C4_witness :
    (∀ row ∈ (queryAuditTrail (some ⟨"agent_a".data, "org_a".data⟩)
        (some "org_b".data) none none none 100 0 DB.empty).results,
      row.org_id = "org_a".data) ∧
    queryAuditTrail (some ⟨"agent_a".data, "org_a".data⟩)
        (some "org_b".data) none none none 100 0 DB.empty =
      queryAuditTrail (some ⟨"agent_a".data, "org_a".data⟩) none none none
        none 100 0 DB.empty ∧
    getAuditStats (some ⟨"agent_a".data, "org_a".data⟩)
        (some "org_b".data) none DB.empty =
      getAuditStats (some ⟨"agent_a".data, "org_a".data⟩) none none
        DB.empty :=
  claim_C4 ⟨"agent_a".data, "org_a".data⟩ (by decide) (some "org_b".data)
    none none none none 100 0 DB.empty

/-! ## Claim C5: token verification on optional-auth endpoints -/

/-- A token that fails every check: its tag was not made with the
server's secret. -/
def badToken : Token :=
  { payload := { agent_id := some "agent_x".data, org_id := some "org_x".data,
                 iat := 0, exp := 10 }
    tag := ⟨"not-the-secret".data,
            { agent_id := none, org_id := none, iat := 0, exp := 0 }⟩ }

/-- Counterexample to C5: with `auth_required=false`, a present (and here
even invalid) bearer token is never looked at — `verify_jwt_optional`
returns `None` before reading the credentials — so the request proceeds
anonymously instead of failing 401, and no AuthContext is populated.  The
claim's "for every value of the auth_required flag" is false. -/
theorem claim_C5_counterexample :
    verifyJwtOptional false "s3cret".data 1000 "/v1/audit/query".data
      (some badToken) DB.empty = (.ok none, DB.empty) := rfl

/-- All the checks C5 lists, as one predicate: valid HMAC tag, not expired
(with the 10-second leeway), both ids present and non-empty, and the agent
row exists and is active. -/
def tokenChecks (secret : List Char) (now : Int) (db : DB) (t : Token) :
    Prop :=
  t.tag = ⟨secret, t.payload⟩ ∧ ¬(t.payload.exp ≤ now - 10) ∧
  (∃ aid, t.payload.agent_id = some aid ∧ aid ≠ []) ∧
  (∃ oid, t.payload.org_id = some oid ∧ oid ≠ []) ∧
  (∃ a, db.agents.find?
      (fun x => x.agent_id = t.payload.agent_id.getD []) = some a ∧
    a.is_active = true)

/-- Claim C5 as amended: the token checks run only when
`auth_required=true`.  With the flag false the dependency returns `None`
(anonymous) without touching the token; with the flag true, a present
token yields the populated AuthContext exactly when every check passes,
and 401 otherwise. -/
theorem claim_C5_amended (auth_required : Bool) (secret : List Char)
    (now : Int) (endpoint : List Char) (creds : Option Token) (db : DB) :
    (auth_required = false →
      verifyJwtOptional auth_required secret now endpoint creds db =
        (.ok none, db)) ∧
    (auth_required = true → ∀ t, creds = some t →
      (tokenChecks secret now db t →
        (verifyJwtOptional auth_required secret now endpoint creds db).1 =
          .ok (some ⟨t.payload.agent_id.getD [], t.payload.org_id.getD []⟩)) ∧
      (¬tokenChecks secret now db t →
        (verifyJwtOptional auth_required secret now endpoint creds db).1 =
          .error 401)) := by
  constructor
  · intro h
    subst h
    rfl
  · intro h t ht
    subst h
    subst ht
    by_cases htag : t.tag = ⟨secret, t.payload⟩
    · by_cases hexp : t.payload.exp ≤ now - 10
      · refine ⟨fun hc => absurd hexp hc.2.1, fun _ => ?_⟩
        simp [verifyJwtOptional, verifyJwt, decodeJwt, htag, hexp]
      · cases hag : t.payload.agent_id with
        | none =>
          refine ⟨fun hc => ?_, fun _ => ?_⟩
          · obtain ⟨aid, haid, -⟩ := hc.2.2.1
            rw [hag] at haid
            cases haid
          · simp [verifyJwtOptional, verifyJwt, decodeJwt, htag, hexp, hag]
        | some aid =>
          cases hog : t.payload.org_id with
          | none =>
            refine ⟨fun hc => ?_, fun _ => ?_⟩
            · obtain ⟨oid, hoid, -⟩ := hc.2.2.2.1
              rw [hog] at hoid
              cases hoid
            · simp [verifyJwtOptional, verifyJwt, decodeJwt, htag, hexp,
                hag, hog]
          | some oid =>
            by_cases hempty : aid = [] ∨ oid = []
            · refine ⟨fun hc => ?_, fun _ => ?_⟩
              · obtain ⟨aid', haid', hane⟩ := hc.2.2.1
                obtain ⟨oid', hoid', hone⟩ := hc.2.2.2.1
                rw [hag] at haid'
                rw [hog] at hoid'
                cases haid'
                cases hoid'
                rcases hempty with h | h
                · exact (hane h).elim
                · exact (hone h).elim
              · simp [verifyJwtOptional, verifyJwt, decodeJwt, htag, hexp,
                  hag, hog, hempty]
            · cases hfind : db.agents.find?
                  (fun x => x.agent_id = aid) with
              | none =>
                refine ⟨fun hc => ?_, fun _ => ?_⟩
                · obtain ⟨a, hfa, -⟩ := hc.2.2.2.2
                  rw [hag] at hfa
                  simp only [Option.getD_some] at hfa
                  rw [hfind] at hfa
                  cases hfa
                · simp [verifyJwtOptional, verifyJwt, decodeJwt, htag,
                    hexp, hag, hog, hempty, hfind]
              | some a =>
                cases hact : a.is_active with
                | false =>
                  refine ⟨fun hc => ?_, fun _ => ?_⟩
                  · obtain ⟨a', hfa, hact'⟩ := hc.2.2.2.2
                    rw [hag] at hfa
                    simp only [Option.getD_some] at hfa
                    rw [hfind] at hfa
                    cases hfa
                    rw [hact'] at hact
                    cases hact
                  · simp [verifyJwtOptional, verifyJwt, decodeJwt, htag,
                      hexp, hag, hog, hempty, hfind, hact]
                | true =>
                  refine ⟨fun _ => ?_, fun hnc => ?_⟩
                  · simp [verifyJwtOptional, verifyJwt, decodeJwt, htag,
                      hexp, hag, hog, hempty, hfind, hact]
                  · exact absurd ⟨htag, hexp, ⟨aid, hag, fun h =>
                      hempty (Or.inl h)⟩, ⟨oid, hog, fun h =>
                      hempty (Or.inr h)⟩, a, by simp [hag, hfind], hact⟩ hnc
    · refine ⟨fun hc => absurd hc.1 htag, fun _ => ?_⟩
      simp [verifyJwtOptional, verifyJwt, decodeJwt, htag]

/-- A valid token for the example agent under the example secret. -/
def goodToken : Token :=
  { payload := { agent_id := some "agent_acme_admin".data
                 org_id := some "org_1234567890abcdef".data
                 iat := 0, exp := 5000 }
    tag := ⟨"s3cret".data,
            { agent_id := some "agent_acme_admin".data
              org_id := some "org_1234567890abcdef".data
              iat := 0, exp := 5000 }⟩ }

/-- The example agent's row, active. -/
def exampleAgentRow : AgentRow :=
  { agent_id := "agent_acme_admin".data
    org_id := "org_1234567890abcdef".data
    agent_name := "admin-agent".data
    is_active := true }

/-- A store holding just the example agent. -/
def authDB : DB := { DB.empty with agents := [exampleAgentRow] }

/-- Witness for C5 (amended): flag off ignores a bad token entirely; flag
on accepts the good token with the populated context and rejects the bad
token with 401. -/
theorem claim_C5_amended_witness :
    verifyJwtOptional false "s3cret".data 1000 "/v1/audit/query".data
      (some badToken) DB.empty = (.ok none, DB.empty) ∧
    (verifyJwtOptional true "s3cret".data 1000 "/v1/audit/query".data
      (some goodToken) authDB).1 =
      .ok (some ⟨"agent_acme_admin".data, "org_1234567890abcdef".data⟩) ∧
    (verifyJwtOptional true "s3cret".data 1000 "/v1/audit/query".data
      (some badToken) authDB).1 = .error 401 := by
  refine ⟨(claim_C5_amended false "s3cret".data 1000 "/v1/audit/query".data
    (some badToken) DB.empty).1 rfl, ?_, ?_⟩
  · exact ((claim_C5_amended true "s3cret".data 1000 "/v1/audit/query".data
      (some goodToken) authDB).2 rfl goodToken rfl).1
      ⟨rfl, by decide, ⟨_, rfl, by decide⟩, ⟨_, rfl, by decide⟩,
       exampleAgentRow, rfl, rfl⟩
  · exact ((claim_C5_amended true "s3cret".data 1000 "/v1/audit/query".data
      (some badToken) authDB).2 rfl badToken rfl).2
      (fun hc => absurd hc.1 (by decide))

/-- The `manifests` row `write_manifest` produces from the example
manifest. -/
def exampleRecord : ManifestRecord :=
  { manifest_id := exampleManifest.manifest_id
    created_at := exampleManifest.timestamp
    agent_id := exampleManifest.agent.agent_id
    org_id := exampleManifest.agent.org_id
    user_id := exampleManifest.agent.user_id
    provider := exampleManifest.action.provider
    method := exampleManifest.action.method
    parameters := exampleManifest.action.parameters
    reasoning := exampleManifest.justification.reasoning
    environment := exampleManifest.environment
    manifest_json := exampleManifest }

/-- The seal the server mints for the example manifest. -/
def exampleSeal : Seal :=
  createSeal 7 100 exampleManifest true "v1.2.3".data none 5

/-- A store holding the example manifest row and its seal. -/
def sealDB : DB :=
  { DB.empty with manifests := [exampleRecord], seals := [exampleSeal] }

/-- Witness for C7 at the example store and a clock inside the TTL. -/
theorem claim_C7_witness :
    verifySealApi 200 exampleSeal.seal_id sealDB = .ok
      { seal_id := exampleSeal.seal_id
        valid := verifySeal exampleSeal exampleRecord.manifest_json &&
          !(decide ((200 : Int) > exampleSeal.expires_at)) &&
          !exampleSeal.was_executed && exampleSeal.approved
        approved := exampleSeal.approved
        expired := decide ((200 : Int) > exampleSeal.expires_at)
        already_executed := exampleSeal.was_executed
        reason :=
          if verifySeal exampleSeal exampleRecord.manifest_json = false then
            some "Invalid cryptographic signature".data
          else if exampleSeal.approved = false then
            some ("Action was denied: ".data ++
              (match exampleSeal.denial_reason with
               | some r => r
               | none => "None".data))
          else if (200 : Int) > exampleSeal.expires_at then
            some "Seal has expired".data
          else if exampleSeal.was_executed then
            some "Seal has already been executed".data
          else none
        manifest_id := exampleSeal.manifest_id } ∧
    (decide ((200 : Int) > exampleSeal.expires_at) = true ↔
      (200 : Int) > exampleSeal.expires_at) :=
  claim_C7 200 exampleSeal.seal_id sealDB exampleSeal exampleRecord
    (by unfold getSeal sealDB
        exact List.find?_cons_of_pos _ (by simp))
    (by unfold getManifest sealDB
        exact List.find?_cons_of_pos _ (by simp [exampleRecord,
          exampleSeal, createSeal]))
